import Mathlib

/-!
Shallow embedding of the wallet-verification backend (`src/node.js`).

The core state is the module-level `const nonces = new Map()` (line 21),
mapping a lowercased address string to its outstanding nonce string.
Two handlers use it:

* `GET /api/nonce` (lines 56-72): rejects a falsy address with
  400 `{ error: "Address required" }`; otherwise draws
  `Math.floor(Math.random() * 1_000_000).toString()` and stores it under
  `address.toLowerCase()`.
* `POST /api/verify` (lines 77-138): rejects if any of
  address/signature/nonce/email is falsy (400), then compares the stored
  nonce with the claimed one (401 on mismatch), then recovers the signer
  of the canonical message via `ethers.verifyMessage` (NOT wrapped in
  try/catch: a throw propagates out of the handler), compares lowercased
  recovered and claimed addresses (401 on mismatch), and only then deletes
  the nonce entry and answers 200.

Modelling conventions:
* JS string truthiness: a field that is `undefined` (absent) or `""` is
  falsy; both are modelled as the empty string, which is observationally
  faithful because the handlers only use a field after its truthiness
  check succeeds.
* `Math.random()` is modelled by a rational parameter `q` with
  `0 ≤ q < 1`; the drawn nonce is `⌊q * 1000000⌋`.
* `ethers.verifyMessage` is a parameter
  `recover : String → String → Option String`; `none` models a throw
  (malformed signature), `some a` a successful recovery of address `a`.
* The JS `Map` is an association list with unique keys in any reachable
  state; `set` overwrites in place or appends, `delete` removes the key.
-/

/-- JS `String.prototype.toLowerCase`, which lowercases the string
character by character; modelled as a charwise map of `Char.toLower` over
the string's characters (extensionally the charwise lowering that
`String.toLower` also performs, but structurally recursive, so concrete
instances evaluate). -/
def toLowerCase (s : String) : String :=
  ⟨s.data.map Char.toLower⟩

/-- The nonce registry: `const nonces = new Map()` (line 21), keyed by
lowercased address. -/
abbrev NonceMap := List (String × String)

/-- JS `Map.get`: value of the first entry with the given key, if any. -/
def mapGet : NonceMap → String → Option String
  | [], _ => none
  | (k', v) :: rest, k => if k' = k then some v else mapGet rest k

/-- JS `Map.set`: overwrite the entry in place if the key is present,
otherwise append a new entry. -/
def mapSet : NonceMap → String → String → NonceMap
  | [], k, v => [(k, v)]
  | (k', v') :: rest, k, v =>
      if k' = k then (k, v) :: rest else (k', v') :: mapSet rest k v

/-- JS `Map.delete`: remove the entries with the given key. -/
def mapDelete (m : NonceMap) (k : String) : NonceMap :=
  m.filter (fun e => e.1 ≠ k)

/-- The nonce draw `Math.floor(Math.random() * 1_000_000)` (line 64), with
`Math.random()`'s return value abstracted as a rational `q ∈ [0, 1)`. -/
def genNonce (q : ℚ) : ℕ :=
  (⌊q * 1000000⌋).toNat

/-- Result of the `GET /api/nonce` handler. -/
inductive IssueResult where
  /-- 200 `{ nonce }` (line 71). -/
  | ok (nonce : String)
  /-- 400 `{ error: <msg> }` (line 61). -/
  | badRequest (error : String)
deriving DecidableEq

/-- The `GET /api/nonce` handler (lines 56-72): falsy address gives
400 `"Address required"`; otherwise the drawn nonce is stored under the
lowercased address and returned. -/
def issue (q : ℚ) (address : String) (m : NonceMap) : IssueResult × NonceMap :=
  if address = "" then
    (.badRequest "Address required", m)
  else
    let nonce := Nat.repr (genNonce q)
    (.ok nonce, mapSet m (toLowerCase address) nonce)

/-- The JSON body of `POST /api/verify` (line 78); absent fields are
modelled as `""` (see the module docstring). -/
structure VerifyRequest where
  address : String
  signature : String
  nonce : String
  email : String
deriving DecidableEq

/-- Outcome of the `POST /api/verify` handler. -/
inductive VerifyResult where
  /-- 400 `{ success: false }`: some field falsy (line 82). -/
  | missingField
  /-- 401 `{ success: false }`: stored nonce absent/falsy or ≠ claimed (line 88). -/
  | nonceMismatch
  /-- `ethers.verifyMessage` threw (line 92); no try/catch encloses it, so
  the exception escapes the handler and no response is produced. -/
  | thrown
  /-- 401 `{ success: false }`: recovered signer ≠ claimed address (line 98). -/
  | signatureMismatch
  /-- 200 `{ success: true }` (line 137), after deleting the nonce (line 101). -/
  | success
deriving DecidableEq

/-- The canonical signed message (line 91):
```
const message = `Sign to verify ownership:\nNonce: ${nonce}`;
``` -/
def mkMessage (nonce : String) : String :=
  "Sign to verify ownership:\nNonce: " ++ nonce

/-- The `POST /api/verify` handler (lines 77-138), with
`ethers.verifyMessage` abstracted as `recover` (`none` = throw). Returns
the outcome together with the nonce map after the request. -/
def verify (recover : String → String → Option String) (r : VerifyRequest)
    (m : NonceMap) : VerifyResult × NonceMap :=
  if r.address = "" ∨ r.signature = "" ∨ r.nonce = "" ∨ r.email = "" then
    (.missingField, m)
  else
    match mapGet m (toLowerCase r.address) with
    | none => (.nonceMismatch, m)
    | some stored =>
      if stored = "" ∨ stored ≠ r.nonce then
        (.nonceMismatch, m)
      else
        match recover (mkMessage r.nonce) r.signature with
        | none => (.thrown, m)
        | some recovered =>
          if toLowerCase recovered ≠ toLowerCase r.address then
            (.signatureMismatch, m)
          else
            (.success, mapDelete m (toLowerCase r.address))

/-! ### Map lemmas -/

theorem mapGet_mapSet_self (m : NonceMap) (k v : String) :
    mapGet (mapSet m k v) k = some v := by
  induction m with
  | nil => simp [mapGet, mapSet]
  | cons e rest ih =>
    obtain ⟨a, b⟩ := e
    by_cases h : a = k <;> simp [mapGet, mapSet, h, ih]

theorem mapGet_mapSet_ne (m : NonceMap) (k v k' : String) (h : k' ≠ k) :
    mapGet (mapSet m k v) k' = mapGet m k' := by
  have h' : k ≠ k' := Ne.symm h
  induction m with
  | nil => simp [mapGet, mapSet, h']
  | cons e rest ih =>
    obtain ⟨a, b⟩ := e
    by_cases h1 : a = k
    · subst h1
      simp [mapGet, mapSet, h']
    · by_cases h2 : a = k' <;> simp [mapGet, mapSet, h, h1, h2, ih]

theorem mapGet_mapDelete_self (m : NonceMap) (k : String) :
    mapGet (mapDelete m k) k = none := by
  induction m with
  | nil => simp [mapGet, mapDelete]
  | cons e rest ih =>
    obtain ⟨a, b⟩ := e
    by_cases h : a = k <;>
      simp_all [mapGet, mapDelete, List.filter_cons, h]

theorem mapGet_mapDelete_ne (m : NonceMap) (k k' : String) (h : k' ≠ k) :
    mapGet (mapDelete m k) k' = mapGet m k' := by
  have h' : k ≠ k' := Ne.symm h
  induction m with
  | nil => simp [mapGet, mapDelete]
  | cons e rest ih =>
    obtain ⟨a, b⟩ := e
    by_cases h1 : a = k
    · subst h1
      simp_all [mapGet, mapDelete, List.filter_cons, h']
    · by_cases h2 : a = k' <;>
        simp_all [mapGet, mapDelete, List.filter_cons, h1, h2]

/-! ### Nonce string facts -/

theorem toDigitsCore_length_pos (b f n : ℕ) (acc : List Char) :
    0 < (Nat.toDigitsCore b (f + 1) n acc).length := by
  induction f generalizing n acc with
  | zero =>
    simp only [Nat.toDigitsCore]
    split <;> simp
  | succ f ih =>
    simp only [Nat.toDigitsCore]
    split
    · simp
    · exact ih _ _

theorem nat_repr_ne_empty (n : ℕ) : Nat.repr n ≠ "" := by
  intro h
  have hd : (Nat.repr n).data = [] := by rw [h]
  have : (Nat.toDigits 10 n).length = 0 := by
    have : (Nat.toDigits 10 n).asString.data = Nat.toDigits 10 n := rfl
    simp only [Nat.repr] at hd
    rw [this] at hd
    simp [hd]
  have hpos : 0 < (Nat.toDigits 10 n).length := by
    unfold Nat.toDigits
    exact toDigitsCore_length_pos 10 n n []
  omega

theorem genNonce_lt (q : ℚ) (h1 : q < 1) :
    genNonce q < 1000000 := by
  unfold genNonce
  have hq : q * 1000000 < 1000000 := by nlinarith
  have hfl : ⌊q * 1000000⌋ < 1000000 := by
    have := Int.floor_lt.mpr (by exact_mod_cast hq)
    exact_mod_cast this
  omega

theorem genNonce_zero : genNonce 0 = 0 := by
  simp [genNonce]

/-! ### Handler case analysis -/

/-- Exhaustive description of a `POST /api/verify` run: each failure path
leaves the map unchanged; the success path deletes exactly the canonical
key, and can only be reached with all fields nonempty and the stored
nonce equal to the claimed one. -/
theorem verify_inversion (recover : String → String → Option String)
    (r : VerifyRequest) (m : NonceMap) :
    verify recover r m = (.missingField, m) ∨
    verify recover r m = (.nonceMismatch, m) ∨
    verify recover r m = (.thrown, m) ∨
    verify recover r m = (.signatureMismatch, m) ∨
    (verify recover r m = (.success, mapDelete m (toLowerCase r.address)) ∧
      r.address ≠ "" ∧ r.signature ≠ "" ∧ r.nonce ≠ "" ∧ r.email ≠ "" ∧
      mapGet m (toLowerCase r.address) = some r.nonce) := by
  by_cases hf : (r.address = "" ∨ r.signature = "" ∨ r.nonce = "" ∨ r.email = "")
  · exact Or.inl (by simp [verify, hf])
  · push_neg at hf
    obtain ⟨ha, hsg, hnn, he⟩ := hf
    cases hg : mapGet m (toLowerCase r.address) with
    | none => exact Or.inr (Or.inl (by simp [verify, ha, hsg, hnn, he, hg]))
    | some stored =>
      by_cases hst : stored = "" ∨ stored ≠ r.nonce
      · exact Or.inr (Or.inl (by simp [verify, ha, hsg, hnn, he, hg, hst]))
      · push_neg at hst
        obtain ⟨hst1, hst2⟩ := hst
        subst hst2
        cases hr : recover (mkMessage r.nonce) r.signature with
        | none =>
          exact Or.inr (Or.inr (Or.inl
            (by simp [verify, ha, hsg, hnn, he, hg, hst1, hr])))
        | some recovered =>
          by_cases hsig : toLowerCase recovered = toLowerCase r.address
          · exact Or.inr (Or.inr (Or.inr (Or.inr
              ⟨by simp [verify, ha, hsg, hnn, he, hg, hst1, hr, hsig],
               ha, hsg, hnn, he, rfl⟩)))
          · exact Or.inr (Or.inr (Or.inr (Or.inl
              (by simp [verify, ha, hsg, hnn, he, hg, hst1, hr, hsig]))))

/-- Helper: with all fields nonempty, a lookup that does not yield exactly
the claimed nonce takes the 401 branch of line 86 and leaves the map
unchanged. -/
theorem verify_eq_nonceMismatch (recover : String → String → Option String)
    (r : VerifyRequest) (m : NonceMap)
    (ha : r.address ≠ "") (hsg : r.signature ≠ "") (hnn : r.nonce ≠ "")
    (he : r.email ≠ "")
    (hm : mapGet m (toLowerCase r.address) ≠ some r.nonce) :
    verify recover r m = (.nonceMismatch, m) := by
  simp only [verify, ha, hsg, hnn, he, or_self, false_or, if_false]
  cases hg : mapGet m (toLowerCase r.address) with
  | none => simp
  | some stored =>
    have hne : stored ≠ r.nonce := by
      intro e; exact hm (by rw [hg, e])
    simp [hne]

/-- Helper: the full-success branch (lines 94-137) characterised. -/
theorem verify_eq_success (recover : String → String → Option String)
    (r : VerifyRequest) (m : NonceMap) (recovered : String)
    (ha : r.address ≠ "") (hsg : r.signature ≠ "") (hnn : r.nonce ≠ "")
    (he : r.email ≠ "")
    (hg : mapGet m (toLowerCase r.address) = some r.nonce)
    (hr : recover (mkMessage r.nonce) r.signature = some recovered)
    (hsig : toLowerCase recovered = toLowerCase r.address) :
    verify recover r m = (.success, mapDelete m (toLowerCase r.address)) := by
  simp [verify, ha, hsg, hnn, he, hg, hnn.symm, hr, hsig]

/-! ### Claim theorems -/

/-- C1: a fully successful `POST /api/verify` removes the nonce record for
the canonical address (so repeating the identical request immediately
fails with the nonce-mismatch outcome), and every non-success outcome
leaves the nonce map unchanged — the nonce is consumed only on the
full-success path. -/
theorem verify_success_consumes_nonce
    (recover : String → String → Option String)
    (r : VerifyRequest) (m : NonceMap) :
    ((verify recover r m).1 = .success →
      mapGet (verify recover r m).2 (toLowerCase r.address) = none ∧
      verify recover r ((verify recover r m).2)
        = (.nonceMismatch, (verify recover r m).2)) ∧
    ((verify recover r m).1 ≠ .success → (verify recover r m).2 = m) := by
  rcases verify_inversion recover r m with
    h | h | h | h | ⟨h, ha, hsg, hnn, he, hg⟩ <;>
    rw [h] <;> constructor <;> intro hs <;> simp_all
  have hd : mapGet (mapDelete m (toLowerCase r.address))
      (toLowerCase r.address) = none :=
    mapGet_mapDelete_self m (toLowerCase r.address)
  exact ⟨hd, by simp [verify, ha, hsg, hnn, he, hd]⟩

/-- Witness for C1 at a concrete successful request: the request for
address `0xAB` with nonce `42` succeeds, afterwards the record is gone and
the identical request fails with the nonce-mismatch outcome. -/
theorem verify_success_consumes_nonce_witness :
    (verify (fun _ _ => some "0xAB") ⟨"0xAB", "0xsig", "42", "a@b"⟩
        [("0xab", "42")]).1 = VerifyResult.success ∧
    mapGet (verify (fun _ _ => some "0xAB") ⟨"0xAB", "0xsig", "42", "a@b"⟩
        [("0xab", "42")]).2 (toLowerCase "0xAB") = none ∧
    verify (fun _ _ => some "0xAB") ⟨"0xAB", "0xsig", "42", "a@b"⟩
        (verify (fun _ _ => some "0xAB") ⟨"0xAB", "0xsig", "42", "a@b"⟩
          [("0xab", "42")]).2
      = (.nonceMismatch,
         (verify (fun _ _ => some "0xAB") ⟨"0xAB", "0xsig", "42", "a@b"⟩
           [("0xab", "42")]).2) := by
  have h := (verify_success_consumes_nonce (fun _ _ => some "0xAB")
    ⟨"0xAB", "0xsig", "42", "a@b"⟩ [("0xab", "42")]).1 (by decide)
  exact ⟨by decide, h.1, h.2⟩

/-- C2 (code bug): at a request whose claimed nonce matches the stored one
but whose signature makes `ethers.verifyMessage` throw (modelled by
`recover` returning `none`), the handler reaches line 92 with no enclosing
try/catch, so the run ends in the `thrown` outcome — the exception
propagates out of the handler instead of being mapped to the
signature-mismatch response. The nonce map is not mutated on this path. -/
theorem verify_malformed_signature_thrown :
    verify (fun _ _ => none) ⟨"0xAB", "not-a-signature", "42", "a@b"⟩
        [("0xab", "42")]
      = (.thrown, [("0xab", "42")]) := by
  decide

/-- C3 counterexample: when the random source returns the same draw for
both issuances (`q = 0` twice), the first issued nonce value `"0"` is
still the stored value after the second `issue`, so a verify presenting
the first value succeeds instead of failing with the nonce mismatch the
claim predicts. -/
theorem issue_twice_stale_nonce_counterexample :
    (issue 0 "0xAB" []).1 = .ok "0" ∧
    (issue 0 "0xAB" (issue 0 "0xAB" []).2).1 = .ok "0" ∧
    (verify (fun _ _ => some "0xAB") ⟨"0xAB", "0xsig", "0", "a@b"⟩
        (issue 0 "0xAB" (issue 0 "0xAB" []).2).2).1
      = VerifyResult.success := by
  have h1 : issue 0 "0xAB" [] = (.ok "0", [("0xab", "0")]) := by
    simp only [issue, genNonce_zero]
    decide
  have h2 : issue 0 "0xAB" [("0xab", "0")] = (.ok "0", [("0xab", "0")]) := by
    simp only [issue, genNonce_zero]
    decide
  rw [h1]
  rw [h2]
  exact ⟨rfl, rfl, by decide⟩

/-- C3 (amended): a second `issue` for the same address overwrites the
stored record — afterwards the lookup returns the second value — and a
verify presenting the first value fails with the nonce-mismatch outcome
provided the second drawn value differs from the first (with equal draws
the first value is still the stored one). -/
theorem issue_overwrites_stale_nonce_mismatch
    (q1 q2 : ℚ) (A sig email : String) (m : NonceMap)
    (recover : String → String → Option String)
    (hA : A ≠ "") (hsig : sig ≠ "") (hemail : email ≠ "")
    (hne : Nat.repr (genNonce q2) ≠ Nat.repr (genNonce q1)) :
    mapGet (issue q2 A (issue q1 A m).2).2 (toLowerCase A)
      = some (Nat.repr (genNonce q2)) ∧
    verify recover ⟨A, sig, Nat.repr (genNonce q1), email⟩
        (issue q2 A (issue q1 A m).2).2
      = (.nonceMismatch, (issue q2 A (issue q1 A m).2).2) := by
  have h2 : (issue q2 A (issue q1 A m).2).2
      = mapSet (issue q1 A m).2 (toLowerCase A) (Nat.repr (genNonce q2)) := by
    simp [issue, hA]
  have hget : mapGet (issue q2 A (issue q1 A m).2).2 (toLowerCase A)
      = some (Nat.repr (genNonce q2)) := by
    rw [h2]
    exact mapGet_mapSet_self _ _ _
  refine ⟨hget, ?_⟩
  exact verify_eq_nonceMismatch recover _ _ hA hsig
    (nat_repr_ne_empty (genNonce q1)) hemail
    (by rw [hget]; simp [hne])

/-- Witness for C3's amended theorem: draws `0` and `1/2` give the nonce
values `"0"` and `"500000"`; after issuing twice for `0xAB`, the stored
value is `"500000"` and a verify claiming the stale `"0"` fails with the
nonce-mismatch outcome. -/
theorem issue_overwrites_stale_nonce_mismatch_witness :
    mapGet (issue (1/2) "0xAB" (issue 0 "0xAB" []).2).2 (toLowerCase "0xAB")
      = some (Nat.repr (genNonce (1/2))) ∧
    verify (fun _ _ => some "0xAB")
        ⟨"0xAB", "0xsig", Nat.repr (genNonce 0), "a@b"⟩
        (issue (1/2) "0xAB" (issue 0 "0xAB" []).2).2
      = (.nonceMismatch, (issue (1/2) "0xAB" (issue 0 "0xAB" []).2).2) := by
  have hhalf : genNonce (1/2) = 500000 := by
    have h : ((1 : ℚ)/2) * 1000000 = ((500000 : ℤ) : ℚ) := by norm_num
    simp only [genNonce, h, Int.floor_intCast]
    decide
  refine issue_overwrites_stale_nonce_mismatch 0 (1/2) "0xAB" "0xsig" "a@b" []
    (fun _ _ => some "0xAB") (by decide) (by decide) (by decide) ?_
  rw [hhalf, genNonce_zero]
  decide

/-- C4: with all four fields present, an absent stored nonce or one not
string-equal to the claimed nonce yields the nonce-mismatch outcome (the
same outcome for never-issued and replaced nonces) and leaves the nonce
map unchanged. -/
theorem verify_nonce_mismatch_no_mutation
    (recover : String → String → Option String)
    (r : VerifyRequest) (m : NonceMap)
    (ha : r.address ≠ "") (hsg : r.signature ≠ "") (hnn : r.nonce ≠ "")
    (he : r.email ≠ "")
    (hm : mapGet m (toLowerCase r.address) = none ∨
      mapGet m (toLowerCase r.address) ≠ some r.nonce) :
    verify recover r m = (.nonceMismatch, m) := by
  refine verify_eq_nonceMismatch recover r m ha hsg hnn he ?_
  rcases hm with hm | hm
  · rw [hm]; simp
  · exact hm

/-- Witness for C4: nonce `"7"` claimed while `"42"` is stored. -/
theorem verify_nonce_mismatch_no_mutation_witness :
    verify (fun _ _ => some "0xAB") ⟨"0xAB", "0xsig", "7", "a@b"⟩
        [("0xab", "42")]
      = (.nonceMismatch, [("0xab", "42")]) :=
  verify_nonce_mismatch_no_mutation _ _ _ (by decide) (by decide) (by decide)
    (by decide) (Or.inr (by decide))

/-- C5: a request with any of the four fields missing/empty fails with the
missing-field outcome and returns the nonce map unchanged — for every
store contents, so the outcome is independent of (reads nothing from) the
store, and any outstanding nonce remains outstanding. -/
theorem verify_missing_field_no_effects
    (recover : String → String → Option String)
    (r : VerifyRequest) (m : NonceMap)
    (h : r.address = "" ∨ r.signature = "" ∨ r.nonce = "" ∨ r.email = "") :
    verify recover r m = (.missingField, m) := by
  simp [verify, h]

/-- Witness for C5: missing nonce field; the outstanding record stays. -/
theorem verify_missing_field_no_effects_witness :
    verify (fun _ _ => some "0xAB") ⟨"0xAB", "0xsig", "", "a@b"⟩
        [("0xab", "42")]
      = (.missingField, [("0xab", "42")]) :=
  verify_missing_field_no_effects _ _ _ (by simp)

/-- C6: addresses are compared case-insensitively throughout. If a nonce
is issued for address `A` and a verification request claims any case
variant `A'` of `A` (same lowercase form), supplies the issued nonce, and
carries a signature whose recovered signer is a case variant of `A`, the
request succeeds: issuing keys the record by the lowercase form, lookup
uses the lowercase form of the claimed address, and the recovered/claimed
comparison lowercases both sides. (A case variant of the nonempty `A` is
itself nonempty; since the variant relation is stated through
`toLowerCase`, that nonemptiness is an explicit hypothesis.) -/
theorem verify_case_insensitive_roundtrip
    (q : ℚ) (recover : String → String → Option String)
    (A A' sig email : String) (m : NonceMap)
    (hA : A ≠ "") (hA' : A' ≠ "")
    (hcase : toLowerCase A = toLowerCase A')
    (hsig : sig ≠ "") (hemail : email ≠ "")
    (hrec : ∃ R, recover (mkMessage (Nat.repr (genNonce q))) sig = some R ∧
      toLowerCase R = toLowerCase A) :
    issue q A m = (.ok (Nat.repr (genNonce q)),
      mapSet m (toLowerCase A) (Nat.repr (genNonce q))) ∧
    verify recover ⟨A', sig, Nat.repr (genNonce q), email⟩ (issue q A m).2
      = (.success, mapDelete (issue q A m).2 (toLowerCase A')) := by
  obtain ⟨R, hR, hRlow⟩ := hrec
  have hiss : issue q A m = (.ok (Nat.repr (genNonce q)),
      mapSet m (toLowerCase A) (Nat.repr (genNonce q))) := by
    simp [issue, hA]
  refine ⟨hiss, ?_⟩
  have hget : mapGet (issue q A m).2 (toLowerCase A')
      = some (Nat.repr (genNonce q)) := by
    rw [hiss, ← hcase]
    exact mapGet_mapSet_self _ _ _
  exact verify_eq_success recover ⟨A', sig, Nat.repr (genNonce q), email⟩
    (issue q A m).2 R hA' hsig (nat_repr_ne_empty (genNonce q)) hemail hget hR
    (hRlow.trans hcase)

/-- Witness for C6: issue for `0xAB`, verify claiming `0xab` with a
recovered signer `0XAb`; the run succeeds. -/
theorem verify_case_insensitive_roundtrip_witness :
    verify (fun _ _ => some "0XAb")
        ⟨"0xab", "0xsig", Nat.repr (genNonce 0), "a@b"⟩
        (issue 0 "0xAB" []).2
      = (.success, mapDelete (issue 0 "0xAB" []).2 (toLowerCase "0xab")) :=
  (verify_case_insensitive_roundtrip 0 (fun _ _ => some "0XAb")
    "0xAB" "0xab" "0xsig" "a@b" [] (by decide) (by decide) (by decide)
    (by decide) (by decide) ⟨"0XAb", rfl, by decide⟩).2

/-- C7: the message handed to signature recovery is a deterministic
function of the claimed nonce alone — the fixed prefix line, a newline,
then `Nonce: ` with the nonce embedded verbatim — and it is injective in
the nonce: equal nonces give the identical message, different nonces give
different messages. -/
theorem mkMessage_deterministic_injective :
    (∀ n, mkMessage n = "Sign to verify ownership:" ++ "\n" ++ "Nonce: " ++ n) ∧
    ∀ n1 n2, mkMessage n1 = mkMessage n2 ↔ n1 = n2 := by
  have hpre : ("Sign to verify ownership:" ++ "\n" ++ "Nonce: " : String)
      = "Sign to verify ownership:\nNonce: " := by decide
  constructor
  · intro n
    rw [mkMessage, hpre]
  · intro n1 n2
    constructor
    · intro h
      have hd : ("Sign to verify ownership:\nNonce: " : String).data ++ n1.data
          = ("Sign to verify ownership:\nNonce: " : String).data ++ n2.data := by
        have := congrArg String.data h
        simpa [mkMessage] using this
      exact String.ext (List.append_cancel_left hd)
    · intro h
      rw [h]

/-- Witness for C7 at concrete nonces `42` and `421`. -/
theorem mkMessage_deterministic_injective_witness :
    mkMessage "42" = "Sign to verify ownership:" ++ "\n" ++ "Nonce: " ++ "42" ∧
    (mkMessage "42" = mkMessage "421" ↔ ("42" : String) = "421") :=
  ⟨mkMessage_deterministic_injective.1 "42",
   mkMessage_deterministic_injective.2 "42" "421"⟩

/-- C8 counterexample: a malformed (non-address) string such as `"zzz"` is
not rejected — the handler only checks falsiness, so `issue` succeeds and
stores a nonce under `"zzz"`, where the claim predicts an InvalidInput
failure for malformed addresses. -/
theorem issue_malformed_address_accepted_counterexample :
    issue 0 "zzz" [] = (.ok "0", [("zzz", "0")]) := by
  simp only [issue, genNonce_zero]
  decide

/-- C8 (amended): `issue` fails with 400 `"Address required"` exactly when
the address is missing/empty, storing nothing; for every nonempty address
string — well-formed or not — it stores the fresh drawn value under the
lowercased address and returns it. -/
theorem issue_address_validation (q : ℚ) (A : String) (m : NonceMap) :
    (A = "" → issue q A m = (.badRequest "Address required", m)) ∧
    (A ≠ "" → issue q A m = (.ok (Nat.repr (genNonce q)),
        mapSet m (toLowerCase A) (Nat.repr (genNonce q))) ∧
      mapGet (issue q A m).2 (toLowerCase A)
        = some (Nat.repr (genNonce q))) := by
  constructor
  · intro h
    simp [issue, h]
  · intro h
    have hiss : issue q A m = (.ok (Nat.repr (genNonce q)),
        mapSet m (toLowerCase A) (Nat.repr (genNonce q))) := by
      simp [issue, h]
    exact ⟨hiss, by rw [hiss]; exact mapGet_mapSet_self _ _ _⟩

/-- Witness for C8's amended theorem: the empty address is rejected with
the store untouched; `0xAB` is accepted and keyed as `0xab`. -/
theorem issue_address_validation_witness :
    issue 0 "" [("0xcd", "7")] = (.badRequest "Address required", [("0xcd", "7")]) ∧
    issue 0 "0xAB" [] = (.ok (Nat.repr (genNonce 0)),
      mapSet [] (toLowerCase "0xAB") (Nat.repr (genNonce 0))) :=
  ⟨(issue_address_validation 0 "" [("0xcd", "7")]).1 rfl,
   ((issue_address_validation 0 "0xAB" []).2 (by decide)).1⟩

/-- C9: every nonce value returned by `issue` is the decimal string
representation of a natural number below 1,000,000, given that the random
draw lies in `Math.random()`'s range `[0, 1)`. -/
theorem issue_nonce_decimal_range (q : ℚ) (A : String) (m : NonceMap)
    (n : String) (m' : NonceMap)
    (h0 : 0 ≤ q) (h1 : q < 1) (hi : issue q A m = (.ok n, m')) :
    ∃ k : ℕ, k < 1000000 ∧ n = Nat.repr k := by
  refine ⟨genNonce q, genNonce_lt q h1, ?_⟩
  by_cases hA : A = ""
  · simp [issue, hA] at hi
  · simp only [issue, hA, if_false] at hi
    exact (IssueResult.ok.inj (congrArg Prod.fst hi).symm)

/-- Witness for C9: the draw `0` yields the nonce string `"0"`. -/
theorem issue_nonce_decimal_range_witness :
    ∃ k : ℕ, k < 1000000 ∧ "0" = Nat.repr k :=
  issue_nonce_decimal_range 0 "0xAB" [] "0" [("0xab", "0")] (le_refl 0)
    (by norm_num)
    (by simp only [issue, genNonce_zero]; decide)

/-- C10: frame property. `issue` touches at most the entry at the
lowercased issued address; `verify` leaves every entry untouched on every
failure outcome, and on success changes the map exactly by deleting the
entry at the lowercased claimed address — so records of every other
address are preserved by every operation. -/
theorem operations_frame_property (q : ℚ) (A : String)
    (recover : String → String → Option String) (r : VerifyRequest)
    (m : NonceMap) (k : String) :
    (k ≠ toLowerCase A → mapGet (issue q A m).2 k = mapGet m k) ∧
    (k ≠ toLowerCase r.address →
      mapGet (verify recover r m).2 k = mapGet m k) ∧
    ((verify recover r m).1 ≠ .success → (verify recover r m).2 = m) ∧
    ((verify recover r m).1 = .success →
      (verify recover r m).2 = mapDelete m (toLowerCase r.address)) := by
  refine ⟨?_, ?_, ?_, ?_⟩
  · intro hk
    by_cases hA : A = ""
    · simp [issue, hA]
    · simp only [issue, hA, if_false]
      exact mapGet_mapSet_ne m (toLowerCase A) (Nat.repr (genNonce q)) k hk
  · intro hk
    rcases verify_inversion recover r m with h | h | h | h | ⟨h, -⟩ <;> rw [h]
    exact mapGet_mapDelete_ne m (toLowerCase r.address) k hk
  · intro hns
    rcases verify_inversion recover r m with h | h | h | h | ⟨h, -⟩ <;>
      rw [h] at hns ⊢ <;> simp_all
  · intro hs
    rcases verify_inversion recover r m with h | h | h | h | ⟨h, -⟩ <;>
      rw [h] at hs ⊢ <;> simp_all

/-- Witness for C10, exercised at a failing run (wrong nonce claimed, map
unchanged) and a successful run (entry `0xab` deleted, entry `0xcd` for
another address preserved). -/
theorem operations_frame_property_witness :
    mapGet (issue 0 "0xAB" [("0xcd", "7")]).2 "0xcd" = some "7" ∧
    mapGet (verify (fun _ _ => some "0xAB") ⟨"0xAB", "0xsig", "42", "a@b"⟩
        [("0xab", "42"), ("0xcd", "7")]).2 "0xcd" = some "7" ∧
    (verify (fun _ _ => some "0xAB") ⟨"0xAB", "0xsig", "7", "a@b"⟩
        [("0xab", "42"), ("0xcd", "7")]).2 = [("0xab", "42"), ("0xcd", "7")] ∧
    (verify (fun _ _ => some "0xAB") ⟨"0xAB", "0xsig", "42", "a@b"⟩
        [("0xab", "42"), ("0xcd", "7")]).2
      = mapDelete [("0xab", "42"), ("0xcd", "7")] (toLowerCase "0xAB") := by
  refine ⟨(operations_frame_property 0 "0xAB" (fun _ _ => some "0xAB")
      ⟨"0xAB", "0xsig", "42", "a@b"⟩ [("0xcd", "7")] "0xcd").1 (by decide),
    (operations_frame_property 0 "0xAB" (fun _ _ => some "0xAB")
      ⟨"0xAB", "0xsig", "42", "a@b"⟩ [("0xab", "42"), ("0xcd", "7")]
      "0xcd").2.1 (by decide), ?_, ?_⟩
  · exact (operations_frame_property 0 "0xAB" (fun _ _ => some "0xAB")
      ⟨"0xAB", "0xsig", "7", "a@b"⟩ [("0xab", "42"), ("0xcd", "7")]
      "0xcd").2.2.1 (by decide)
  · exact (operations_frame_property 0 "0xAB" (fun _ _ => some "0xAB")
      ⟨"0xAB", "0xsig", "42", "a@b"⟩ [("0xab", "42"), ("0xcd", "7")]
      "0xcd").2.2.2 (by decide)
